import Mathlib

set_option maxRecDepth 100000

/-!
Verification of the bulk WhatsApp dispatch engine (`src/api.py`, `src/app.py`).

The file shallowly embeds the recipient extractor (`excel_to_phone_list`,
`convert_to_phone`, `process_dataframe`), the template-parameter builder
(`generate_components`), the per-task send/retry loop (`send_message_task`),
the rate-limiter gate (`rate_limited_send`) and the result-aggregation loop
of `main`, and proves or refutes the specified properties about them.

Strings are handled through their underlying character lists so that every
definition is executable and kernel-evaluable on concrete inputs.
-/

/-! ## Character-list string helpers

Python string operations used by the extractor, modelled over `List Char`
(exact for the ASCII data the extractor handles). -/

/-- Does `hay` start with `pat`? (`List Char` version). -/
def listStarts : List Char → List Char → Bool
  | _, [] => true
  | [], _ :: _ => false
  | c :: cs, p :: ps => (c = p) && listStarts cs ps

/-- Does `hay` contain `pat` as a contiguous run? Models `re.search` with a
literal pattern / Python `in`. -/
def listHasSub (hay pat : List Char) : Bool :=
  match hay with
  | [] => pat.isEmpty
  | _ :: cs => listStarts hay pat || listHasSub cs pat

/-- Python whitespace characters stripped by `str.strip()` (ASCII subset). -/
def isSpaceChar (c : Char) : Bool :=
  c = ' ' || c = '\t' || c = '\n' || c = '\r' || c = '\x0b' || c = '\x0c'

/-- Model of Python `str.strip()`. -/
def pyStrip (s : String) : String :=
  ⟨((s.data.dropWhile isSpaceChar).reverse.dropWhile isSpaceChar).reverse⟩

/-- Model of Python `str.lstrip("+")`: removes every leading `+`. -/
def stripPlus (s : String) : String :=
  ⟨s.data.dropWhile (fun c => c = '+')⟩

/-! ## Model of `convert_to_phone` (src/api.py lines 215-244)

A cell read by pandas from a CSV/Excel column is `None`/`NaN`, a number, or
a string.  Python `int(float_value)` truncates toward zero; the scientific
literal branch `int(float(value_str))` is modelled by an exact-rational
parser of Python float literals (exact for every value inside double
precision; the claims never exercise values outside it). -/

/-- A cell of a parsed spreadsheet / CSV column. -/
inductive CellValue
  | blank
  | num (q : Rat)
  | str (s : String)
deriving DecidableEq, Repr

/-- Digits of a char list interpreted as a base-10 natural number. -/
def digitsToNat (ds : List Char) : Nat :=
  ds.foldl (fun acc c => acc * 10 + (c.toNat - '0'.toNat)) 0

/-- Read an optional sign, returning the sign and the rest. -/
def parseSign : List Char → Int × List Char
  | '+' :: cs => (1, cs)
  | '-' :: cs => (-1, cs)
  | cs => (1, cs)

/-- Parse the exponent tail of a float literal; `[]` means exponent 0. -/
def parseExp : List Char → Option Int
  | [] => some 0
  | c :: cs =>
    if c = 'e' ∨ c = 'E' then
      let (es, cs1) := parseSign cs
      let ed := cs1.takeWhile Char.isDigit
      let rest := cs1.dropWhile Char.isDigit
      if ed.isEmpty || !rest.isEmpty then none
      else some (es * (digitsToNat ed : Int))
    else none

/-- Truncation toward zero of the float literal with sign `sgn`, integer
digits `ip`, fraction digits `fp` and decimal exponent `e`; the semantics of
`int(float(...))` (exact: the only degenerate inputs sent down this path are
integral within double precision). -/
def truncOfParts (sgn : Int) (ip fp : List Char) (e : Int) : Int :=
  let m : Nat := digitsToNat (ip ++ fp)
  let ex : Int := e - (fp.length : Int)
  if 0 ≤ ex then sgn * (m * 10 ^ ex.toNat : Nat)
  else sgn * (m / 10 ^ (-ex).toNat : Nat)

/-- Parse a Python float literal (sign, digits with optional point, optional
exponent) and truncate it to an integer; `none` models `ValueError`. -/
def pyFloatToInt (cs : List Char) : Option Int :=
  let (sgn, cs1) := parseSign cs
  let ip := cs1.takeWhile Char.isDigit
  let cs2 := cs1.dropWhile Char.isDigit
  match cs2 with
  | '.' :: cs3 =>
    let fp := cs3.takeWhile Char.isDigit
    let cs4 := cs3.dropWhile Char.isDigit
    if ip.isEmpty && fp.isEmpty then none
    else (parseExp cs4).map (truncOfParts sgn ip fp)
  | _ =>
    if ip.isEmpty then none
    else (parseExp cs2).map (truncOfParts sgn ip [])

/-- Truncation toward zero, the semantics of Python `int()` on a float. -/
def ratTrunc (q : Rat) : Int :=
  q.num.tdiv (q.den : Int)

/-- Model of `convert_to_phone` in `src/api.py`: blanks map to `""`, numeric
cells to `str(int(value))`, strings are stripped, scientific-literal strings
(containing `e`/`E`) are reconstituted through `int(float(...))` when they
parse, and otherwise leading `+` signs are removed. -/
def convert_to_phone : CellValue → String
  | .blank => ""
  | .num q => toString (ratTrunc q)
  | .str s =>
    let t := pyStrip s
    if t = "" then ""
    else if t.data.any (fun c => c = 'e' || c = 'E') then
      match pyFloatToInt t.data with
      | some n => toString n
      | none => stripPlus t
    else stripPlus t

/-! ## Model of `process_dataframe` (src/api.py lines 246-260) -/

/-- The column-header patterns of `mobile_pattern`. -/
def mobilePatterns : List String := ["mobile", "phone", "cell", "tel", "contact"]

/-- Model of `mobile_pattern.search(str(column))`: case-insensitive substring
match of any pattern. -/
def headerMatches (h : String) : Bool :=
  mobilePatterns.any (fun p => listHasSub (h.data.map Char.toLower) p.data)

/-- Model of `valid_pattern.match(phone_str)` combined with the non-emptiness
check: `^\d+$` on a string that never ends in a newline. -/
def validPhone (s : String) : Bool :=
  !s.data.isEmpty && s.data.all Char.isDigit

/-- Python truthiness of a cell (`if value`). -/
def cellTruthy : CellValue → Bool
  | .blank => false
  | .num q => decide (q ≠ 0)
  | .str s => !s.data.isEmpty

/-- Model of Python `str(value)` on a cell, used only for the
`str(value).strip()` emptiness test (never empty on numeric cells, exact on
string cells). -/
def cellStr : CellValue → String
  | .blank => "nan"
  | .num q => toString q
  | .str s => s

/-- One column's scan in `process_dataframe`: `dropna()`, the truthiness and
strip test, `convert_to_phone`, and the `valid_pattern` filter. -/
def extractColumn (vals : List CellValue) : List String :=
  (vals.filter (fun v => decide (v ≠ CellValue.blank))).filterMap (fun v =>
    if cellTruthy v && !(pyStrip (cellStr v)).data.isEmpty then
      let p := convert_to_phone v
      if validPhone p then some p else none
    else none)

/-- Model of `list(dict.fromkeys(numbers))`: left fold inserting each value
once, in insertion order. -/
def pyDedup (l : List String) : List String :=
  l.foldl (fun acc x => if x ∈ acc then acc else acc ++ [x]) []

/-- First-seen deduplication, the specification-side description of
`dict.fromkeys`: keep the head, drop its later duplicates, recurse. -/
def firstSeen : List String → List String
  | [] => []
  | x :: xs => x :: firstSeen (xs.filter (fun y => decide (y ≠ x)))
termination_by l => l.length
decreasing_by
  simp only [List.length_cons]
  exact Nat.lt_succ_of_le (List.length_filter_le _ _)

/-- Model of `process_dataframe`: walk the columns in order; on a column
whose header matches, extract; if the extraction is non-empty, store the
deduplicated list and stop (`break`), otherwise keep scanning.  `none`
models "no key written into `result`". -/
def process_dataframe : List (String × List CellValue) → Option (List String)
  | [] => none
  | (h, vals) :: rest =>
    if headerMatches h then
      let numbers := extractColumn vals
      if numbers.isEmpty then process_dataframe rest
      else some (pyDedup numbers)
    else process_dataframe rest

/-! ## Model of `excel_to_phone_list` (src/api.py lines 200-291) -/

/-- `filename.split(".")[-1]` : the characters after the last dot, or the
whole name when there is no dot. -/
def extChars (filename : String) : List Char :=
  let cs := filename.data
  if cs.contains '.' then (cs.reverse.takeWhile (fun c => decide (c ≠ '.'))).reverse
  else cs

/-- `filename.split(".")[-1].lower().upper()`, the Excel result key. -/
def extKey (filename : String) : String :=
  ⟨(extChars filename).map Char.toLower |>.map Char.toUpper⟩

/-- `filename.lower().endswith(".csv")`. -/
def isCsvFile (filename : String) : Bool :=
  listStarts (filename.data.map Char.toLower).reverse ".csv".data.reverse

/-- Model of `excel_to_phone_list`.  `sheets` is the parsed file: for a CSV
the single frame produced by `pd.read_csv`, for a workbook its sheets in
order.  `pd.read_excel` is called without `sheet_name`, so pandas reads only
the first sheet (its default `sheet_name=0`); a file that yields no frame is
a read exception, modelled as `none`. -/
def excel_to_phone_list (filename : String)
    (sheets : List (List (String × List CellValue))) :
    Option (List (String × List String)) :=
  match sheets.head? with
  | none => none
  | some df =>
    let key := if isCsvFile filename then "CSV" else extKey filename
    match process_dataframe df with
    | some nums => some [(key, nums)]
    | none => some []

/-! ## Model of `generate_components` (src/api.py lines 34-45) -/

/-- A Python value passed as a template variable. -/
inductive PyVal
  | pnone
  | int (n : Int)
  | str (s : String)
deriving DecidableEq, Repr

/-- Python truthiness (`if t`). -/
def pyTruthy : PyVal → Bool
  | .pnone => false
  | .int n => decide (n ≠ 0)
  | .str s => !s.data.isEmpty

/-- Python `str(t)`. -/
def pyValStr : PyVal → String
  | .pnone => "None"
  | .int n => toString n
  | .str s => s

/-- Model of `generate_components`: keep the truthy values, stringify them,
and return `None` when nothing is left (`BodyText.params(*filtered)` is
modelled as the list of its arguments). -/
def generate_components (texts : List PyVal) : Option (List String) :=
  let filtered := (texts.filter pyTruthy).map pyValStr
  if filtered.isEmpty then none else some filtered

/-! ## Model of `send_message_task` (src/app.py lines 445-517)

The mock transport's answer to each attempt is an `AttemptResult`: a
successful provider response, a provider response whose parsed JSON carries
an `error` object (with its code and message), or a raised exception
(network / connection failure).  The task run records the returned result
dict (success flag, phone, error text), plus two ghost observations: the
number of send invocations made and the ordered event trace (sends, backoff
sleeps, and the rate-limiter acquisition added by `rate_limited_send`). -/

/-- What the transport does on one attempt. -/
inductive AttemptResult
  | success (msgId : String)
  | apiError (code : Int) (msg : String)
  | transportError (msg : String)
deriving DecidableEq, Repr

/-- An observable event of one task's execution. -/
inductive Ev
  | acq
  | send (attempt : Nat)
  | sleep (d : Rat)
deriving DecidableEq, Repr

/-- The retry classification applied by `send_message_task`: rate-limit codes
4 / 80007 or any code `>= 500` on an API error; every raised exception. -/
def retryableClass : AttemptResult → Bool
  | .success _ => false
  | .apiError code _ => decide (code = 4 ∨ code = 80007 ∨ 500 ≤ code)
  | .transportError _ => true

/-- The outcome of one task: the dict returned by `send_message_task`
(fields `success`, `phone`, `error`) plus the ghost attempt count and event
trace. -/
structure TaskRun where
  success : Bool
  phone : String
  error : Option String
  attempts : Nat
  events : List Ev
deriving DecidableEq, Repr

/-- The retry loop body of `send_message_task`: `attempt` is the loop index,
`fuel` the remaining iterations of `range(max_retries + 1)`.  Backoff before
a retry is `(2 ** attempt) * 0.5` seconds, written `mkRat (2 ^ attempt) 2`
so that concrete traces evaluate inside the kernel.  The fuel-exhausted base case is
Python's unreachable fall-through `return` after the loop. -/
def smtGo (phone : String) (responses : Nat → AttemptResult) (maxRetries : Nat) :
    Nat → Nat → TaskRun
  | _, 0 => ⟨false, phone, some "Max retries exceeded", 0, []⟩
  | attempt, fuel + 1 =>
    match responses attempt with
    | .success _ => ⟨true, phone, none, 1, [.send attempt]⟩
    | .apiError code msg =>
      if attempt < maxRetries ∧ (code = 4 ∨ code = 80007 ∨ 500 ≤ code) then
        let rest := smtGo phone responses maxRetries (attempt + 1) fuel
        ⟨rest.success, rest.phone, rest.error, rest.attempts + 1,
          .send attempt :: .sleep (mkRat (2 ^ attempt) 2) :: rest.events⟩
      else
        ⟨false, phone, some (msg ++ " (Code: " ++ toString code ++ ")"), 1,
          [.send attempt]⟩
    | .transportError msg =>
      if attempt < maxRetries then
        let rest := smtGo phone responses maxRetries (attempt + 1) fuel
        ⟨rest.success, rest.phone, rest.error, rest.attempts + 1,
          .send attempt :: .sleep (mkRat (2 ^ attempt) 2) :: rest.events⟩
      else ⟨false, phone, some msg, 1, [.send attempt]⟩

/-- Model of `send_message_task(phone_number, max_retries=2)`. -/
def send_message_task (phone : String) (responses : Nat → AttemptResult) : TaskRun :=
  smtGo phone responses 2 0 3

/-- Model of `rate_limited_send`: one rate-limiter acquisition, then the full
retry loop of `send_message_task`. -/
def rate_limited_send (phone : String) (responses : Nat → AttemptResult) : TaskRun :=
  let r := send_message_task phone responses
  ⟨r.success, r.phone, r.error, r.attempts, .acq :: r.events⟩

/-- The attempt index of a send event. -/
def sendIdx : Ev → Option Nat
  | .send a => some a
  | _ => none

/-- Is the event a backoff sleep? -/
def isSleepEv : Ev → Bool
  | .sleep _ => true
  | _ => false

/-- The terminal result dict produced when the loop stops at a given
attempt's response: success for a clean response, otherwise the error text
the code stores (`f"{error_message} (Code: {error_code})"` for an API error,
`str(e)` for an exception). -/
def attemptOutcome : AttemptResult → Bool × Option String
  | .success _ => (true, none)
  | .apiError c m => (false, some (m ++ " (Code: " ++ toString c ++ ")"))
  | .transportError m => (false, some m)

/-! ## Model of the rate limiter (src/app.py lines 523-538)

The lock serializes all acquisitions, and the compensating sleep happens
inside the critical section, so a run of the limiter is a sequence of
acquisitions.  `arr n` is the time at which the `n`-th acquirer (in lock
order) is ready to enter the critical section; the section actually starts
at `max` of that and the time the previous acquirer released the lock, and
the permit is granted (the lock released) after any compensating sleep.
Times are exact rationals. -/

/-- Rational addition written through `mkRat`, so that concrete runs of the
limiter evaluate inside the kernel; `qadd_eq` identifies it with `+`. -/
def qadd (a b : Rat) : Rat := mkRat (a.num * b.den + b.num * a.den) (a.den * b.den)

/-- Rational subtraction written through `mkRat`; `qsub_eq` identifies it
with `-`. -/
def qsub (a b : Rat) : Rat := mkRat (a.num * b.den - b.num * a.den) (a.den * b.den)

/-- The mutable pair `{"last_batch_time": ..., "count": ...}`. -/
structure RLState where
  lastBatch : Rat
  count : Nat
deriving DecidableEq, Repr

/-- One execution of the critical section of `rate_limited_send` at time
`now`: bump the counter; on the 80th permit sleep out the remainder of the
1-second window (`time.sleep(1.0 - elapsed)`, so the section ends at
`now + (1 - elapsed)`) and reset.  Returns the grant (lock release) time and
the new state. -/
def rlAcquire (s : RLState) (now : Rat) : Rat × RLState :=
  if s.count + 1 ≥ 80 then
    let g := if qsub now s.lastBatch < 1 then qadd now (qsub 1 (qsub now s.lastBatch))
             else now
    (g, ⟨g, 0⟩)
  else (now, ⟨s.lastBatch, s.count + 1⟩)

/-- The later of two times (kernel-evaluable max on `Rat`). -/
def rmax (a b : Rat) : Rat := if a ≤ b then b else a

/-- The limiter system after `n` acquisitions: the pair of the time the lock
was last released and the limiter state.  `t0` is the run's start time, `s0`
the state built at line 523 (`count = 0`, `lastBatch` = creation time). -/
def rlSys (s0 : RLState) (t0 : Rat) (arr : Nat → Rat) : Nat → Rat × RLState
  | 0 => (t0, s0)
  | n + 1 => rlAcquire (rlSys s0 t0 arr n).2 (rmax (rlSys s0 t0 arr n).1 (arr n))

/-- The time the `n`-th permit (0-indexed) is granted; with an instant mock
transport this is the time of that task's send attempt. -/
def grantTime (s0 : RLState) (t0 : Rat) (arr : Nat → Rat) (n : Nat) : Rat :=
  (rlSys s0 t0 arr (n + 1)).1

/-! ## Model of the aggregation loop (src/app.py lines 430-438 and 550-566)

`as_completed` yields every submitted future exactly once, in an arbitrary
completion order; the loop then bumps `total_messages_sent` or
`total_messages_failed`.  An observation point after `k` completions is the
fold over the first `k` outcomes, and `completed` is computed there as
`total_messages_sent + total_messages_failed`. -/

/-- One iteration of the `as_completed` loop over the counter pair. -/
def recordOutcome : Nat × Nat → Bool → Nat × Nat
  | (s, f), true => (s + 1, f)
  | (s, f), false => (s, f + 1)

/-- The `(total_messages_sent, total_messages_failed)` counters after a list
of completions. -/
def aggregate (outcomes : List Bool) : Nat × Nat :=
  outcomes.foldl recordOutcome (0, 0)

/-- `total_tasks = sum(len(phones) for phones in phone_numbers_dict.values())`. -/
def total_tasks (d : List (String × List String)) : Nat :=
  (d.map (fun g => g.2.length)).sum

/-- The flattened submission list: one future per phone number of every
group (src/app.py lines 543-548). -/
def flattenTasks (d : List (String × List String)) : List String :=
  (d.map (fun g => g.2)).flatten

/-- The arrival schedule of the C3 run: every worker reaches the limiter
0.9 seconds after the limiter was created. -/
def ceArr : Nat → Rat := fun _ => mkRat 9 10

/-- Grant times of that run, starting from the state built at line 523. -/
def ceGrant (n : Nat) : Rat := grantTime ⟨0, 0⟩ 0 ceArr n


/-! ## Lemmas: rational bridges -/

lemma qadd_eq (a b : Rat) : qadd a b = a + b := by
  unfold qadd
  rw [Rat.mkRat_eq_div]
  conv_rhs => rw [← Rat.num_div_den a, ← Rat.num_div_den b]
  push_cast
  field_simp

lemma qsub_eq (a b : Rat) : qsub a b = a - b := by
  unfold qsub
  rw [Rat.mkRat_eq_div]
  conv_rhs => rw [← Rat.num_div_den a, ← Rat.num_div_den b]
  rw [div_sub_div _ _ (by exact_mod_cast a.den_nz) (by exact_mod_cast b.den_nz)]
  push_cast
  ring_nf

/-! ## Lemmas: deduplication -/

lemma pyDedup_go (l : List String) :
    ∀ acc : List String,
      l.foldl (fun acc x => if x ∈ acc then acc else acc ++ [x]) acc =
        acc ++ firstSeen (l.filter (fun y => decide (y ∉ acc))) := by
  induction l with
  | nil => intro acc; simp [firstSeen]
  | cons x xs ih =>
    intro acc
    by_cases hx : x ∈ acc
    · rw [List.foldl_cons, if_pos hx,
        List.filter_cons_of_neg (by simp [hx]), ih acc]
    · rw [List.foldl_cons, if_neg hx,
        List.filter_cons_of_pos (by simp [hx]), ih (acc ++ [x]), firstSeen]
      rw [List.filter_filter, List.append_assoc, List.singleton_append]
      congr 3
      apply List.filter_congr
      intro y _
      rcases Decidable.em (y ∈ acc) with h1 | h1 <;>
        rcases Decidable.em (y = x) with h2 | h2 <;> simp [h1, h2]

lemma pyDedup_eq_firstSeen (l : List String) : pyDedup l = firstSeen l := by
  unfold pyDedup
  rw [pyDedup_go]
  simp

lemma firstSeen_sublist (l : List String) : (firstSeen l).Sublist l := by
  induction l using firstSeen.induct with
  | case1 => simp [firstSeen]
  | case2 x xs ih =>
    rw [firstSeen]
    exact (ih.trans (List.filter_sublist xs)).cons_cons x

lemma mem_firstSeen (l : List String) (x : String) : x ∈ firstSeen l ↔ x ∈ l := by
  induction l using firstSeen.induct with
  | case1 => simp [firstSeen]
  | case2 y ys ih =>
    rw [firstSeen]
    simp only [List.mem_cons]
    constructor
    · rintro (rfl | h)
      · exact Or.inl rfl
      · exact Or.inr ((List.filter_sublist ys).subset (ih.mp h))
    · rintro (rfl | h)
      · exact Or.inl rfl
      · by_cases hxy : x = y
        · exact Or.inl hxy
        · exact Or.inr (ih.mpr (List.mem_filter.mpr ⟨h, by simp [hxy]⟩))

lemma firstSeen_nodup (l : List String) : (firstSeen l).Nodup := by
  induction l using firstSeen.induct with
  | case1 => simp [firstSeen]
  | case2 y ys ih =>
    rw [firstSeen]
    refine List.nodup_cons.mpr ⟨?_, ih⟩
    intro hy
    have := (mem_firstSeen _ y).mp hy
    simp at this

/-! ## Lemmas: the extractor -/

lemma extractColumn_valid {vals : List CellValue} {p : String}
    (h : p ∈ extractColumn vals) : validPhone p = true := by
  unfold extractColumn at h
  rw [List.mem_filterMap] at h
  obtain ⟨v, _, hv⟩ := h
  by_cases h1 : cellTruthy v && !(pyStrip (cellStr v)).data.isEmpty
  · rw [if_pos h1] at hv
    by_cases h2 : validPhone (convert_to_phone v)
    · rw [if_pos h2] at hv
      cases hv
      exact h2
    · rw [if_neg h2] at hv
      cases hv
  · rw [if_neg h1] at hv
    cases hv

lemma process_dataframe_some {df : List (String × List CellValue)}
    {l : List String} (h : process_dataframe df = some l) :
    ∃ hdr vals, (hdr, vals) ∈ df ∧ headerMatches hdr = true ∧
      extractColumn vals ≠ [] ∧ l = pyDedup (extractColumn vals) := by
  induction df with
  | nil => simp [process_dataframe] at h
  | cons c rest ih =>
    obtain ⟨hdr0, vals0⟩ := c
    rw [process_dataframe] at h
    by_cases hm : headerMatches hdr0
    · rw [if_pos hm] at h
      by_cases he : (extractColumn vals0).isEmpty
      · rw [if_pos he] at h
        obtain ⟨hdr, vals, hmem, h1, h2, h3⟩ := ih h
        exact ⟨hdr, vals, List.mem_cons_of_mem _ hmem, h1, h2, h3⟩
      · rw [if_neg he] at h
        cases h
        refine ⟨hdr0, vals0, List.mem_cons_self _ _, hm, ?_, rfl⟩
        intro hnil
        exact he (by simp [hnil])
    · rw [if_neg hm] at h
      obtain ⟨hdr, vals, hmem, h1, h2, h3⟩ := ih h
      exact ⟨hdr, vals, List.mem_cons_of_mem _ hmem, h1, h2, h3⟩

/-! ## Claim C6 -/

/-- C6 counterexample: a group whose first matching column (`"phone"`)
yields zero valid values is not omitted; the code falls back to the later
matching column `"mobile"` and extracts `"123"` from it, contradicting the
claim that recipients are extracted only from the first matching column. -/
theorem process_dataframe_fallback_column :
    headerMatches "phone" = true ∧
    extractColumn [CellValue.str "abc"] = [] ∧
    process_dataframe [("phone", [CellValue.str "abc"]),
                       ("mobile", [CellValue.str "123"])] = some ["123"] := by
  decide

/-- C6 (amended): recipients are extracted from the first header-matching
column whose extraction yields at least one valid value (columns whose
headers do not match, and matching columns all of whose values are invalid,
are skipped); if no such column exists, the group yields no recipients. -/
theorem process_dataframe_first_productive_column
    (df : List (String × List CellValue)) :
    process_dataframe df =
      ((df.filter (fun c => headerMatches c.1)).find?
        (fun c => !(extractColumn c.2).isEmpty)).map
        (fun c => pyDedup (extractColumn c.2)) := by
  induction df with
  | nil => simp [process_dataframe]
  | cons c rest ih =>
    obtain ⟨hdr0, vals0⟩ := c
    rw [process_dataframe]
    by_cases hm : headerMatches hdr0
    · rw [if_pos hm, List.filter_cons_of_pos (by simpa using hm)]
      by_cases he : (extractColumn vals0).isEmpty
      · rw [if_pos he, List.find?_cons_of_neg _ (by simpa using he)]
        exact ih
      · rw [if_neg he, List.find?_cons_of_pos _ (by simpa using he)]
        rfl
    · rw [if_neg hm, List.filter_cons_of_neg (by simpa using hm)]
      exact ih

/-! ## Claim C7 -/

/-- C7: every recipient emitted by the extractor is a non-empty string of
decimal digits; values that normalize to empty or contain a non-digit are
rejected by the `valid_pattern` filter before being collected. -/
theorem extracted_phones_all_digits (df : List (String × List CellValue))
    (l : List String) (s : String) (hp : process_dataframe df = some l)
    (hs : s ∈ l) : s ≠ "" ∧ s.data.all Char.isDigit = true := by
  obtain ⟨hdr, vals, _, _, _, hl⟩ := process_dataframe_some hp
  subst hl
  rw [pyDedup_eq_firstSeen, mem_firstSeen] at hs
  have hv := extractColumn_valid hs
  unfold validPhone at hv
  rw [Bool.and_eq_true] at hv
  refine ⟨?_, hv.2⟩
  intro hempty
  subst hempty
  simp at hv

/-- C7 witness. -/
theorem extracted_phones_all_digits_witness :
    "987" ≠ "" ∧ "987".data.all Char.isDigit = true :=
  extracted_phones_all_digits [("mobile", [CellValue.str "987"])] ["987"] "987"
    (by decide) (by decide)

/-! ## Claim C8 -/

/-- C8: an extracted group has no duplicate identifiers and lists them in
first-seen order (it is the first-seen deduplication of the scanned column,
hence a duplicate-free sublist of it); and the grid with header
`"Mobile Number"` and rows `["9876543210", "9876543210", "abc", ""]` yields
exactly the single recipient `"9876543210"`. -/
theorem extracted_phones_nodup_first_seen (df : List (String × List CellValue))
    (l : List String) (hp : process_dataframe df = some l) :
    l.Nodup ∧
    (∃ hdr vals, (hdr, vals) ∈ df ∧ headerMatches hdr = true ∧
      l = firstSeen (extractColumn vals) ∧ l.Sublist (extractColumn vals)) ∧
    process_dataframe
      [("Mobile Number",
        [CellValue.str "9876543210", CellValue.str "9876543210",
         CellValue.str "abc", CellValue.str ""])] = some ["9876543210"] := by
  obtain ⟨hdr, vals, hmem, hm, _, hl⟩ := process_dataframe_some hp
  subst hl
  rw [pyDedup_eq_firstSeen]
  exact ⟨firstSeen_nodup _,
    ⟨hdr, vals, hmem, hm, rfl, firstSeen_sublist _⟩, by decide⟩

/-- C8 witness. -/
theorem extracted_phones_nodup_first_seen_witness :
    (["9876543210"] : List String).Nodup :=
  (extracted_phones_nodup_first_seen
    [("Mobile Number",
      [CellValue.str "9876543210", CellValue.str "9876543210",
       CellValue.str "abc", CellValue.str ""])] ["9876543210"] (by decide)).1

/-! ## Claim C9 -/

/-- C9: `generate_components` drops every falsy value (`None`, `0`, `""`)
before building the body parameters, so the parameter list it produces is
the stringification of just the truthy inputs — in particular it can be
shorter than the input list — and the result is `None` exactly when every
input value is falsy. -/
theorem generate_components_drops_falsy (texts : List PyVal) :
    (generate_components texts = none ↔ ∀ t ∈ texts, pyTruthy t = false) ∧
    (∀ l, generate_components texts = some l →
      l = (texts.filter pyTruthy).map pyValStr ∧
      l.length + texts.countP (fun t => !pyTruthy t) = texts.length ∧
      l.length ≤ texts.length) := by
  constructor
  · unfold generate_components
    by_cases he : ((texts.filter pyTruthy).map pyValStr).isEmpty
    · rw [if_pos he]
      simp only [true_iff]
      rw [List.isEmpty_iff, List.map_eq_nil_iff, List.filter_eq_nil_iff] at he
      intro t ht
      simpa using he t ht
    · rw [if_neg he]
      constructor
      · intro h
        cases h
      · intro hall
        exfalso
        refine he ?_
        rw [List.isEmpty_iff, List.map_eq_nil_iff, List.filter_eq_nil_iff]
        intro t ht
        simp [hall t ht]
  · intro l hl
    unfold generate_components at hl
    by_cases he : ((texts.filter pyTruthy).map pyValStr).isEmpty
    · rw [if_pos he] at hl
      cases hl
    · rw [if_neg he] at hl
      cases hl
      refine ⟨rfl, ?_, ?_⟩
      · rw [List.length_map, ← List.countP_eq_length_filter]
        have h1 := List.length_eq_countP_add_countP pyTruthy texts
        have h2 : texts.countP (fun t => !pyTruthy t) =
            texts.countP (fun a => decide ¬pyTruthy a = true) :=
          List.countP_congr (by intro a _; simp)
        omega
      · rw [List.length_map]
        exact (List.length_filter_le _ _)

/-- C9 witness: every value falsy gives `None`. -/
theorem generate_components_drops_falsy_witness :
    generate_components [PyVal.str "", PyVal.int 0, PyVal.pnone] = none :=
  (generate_components_drops_falsy
    [PyVal.str "", PyVal.int 0, PyVal.pnone]).1.mpr (by decide)

/-! ## Claim C10 -/

/-- C10: the extractor's output holds at most one group; its key is `"CSV"`
for a CSV file and the uppercased file extension otherwise; and, since
`pd.read_excel` is called with its default `sheet_name=0`, the result never
depends on any sheet beyond the first. -/
theorem excel_to_phone_list_single_group (filename : String)
    (sheets : List (List (String × List CellValue)))
    (r : List (String × List String))
    (h : excel_to_phone_list filename sheets = some r) :
    r.length ≤ 1 ∧
    (∀ k l, (k, l) ∈ r →
      k = (if isCsvFile filename then "CSV" else extKey filename)) ∧
    (∀ d rest rest',
      excel_to_phone_list filename (d :: rest) =
        excel_to_phone_list filename (d :: rest')) := by
  refine ⟨?_, ?_, ?_⟩
  · cases sheets with
    | nil => simp [excel_to_phone_list] at h
    | cons df tail =>
      rw [excel_to_phone_list] at h
      simp only [List.head?_cons] at h
      rcases hpd : process_dataframe df with _ | nums <;> rw [hpd] at h <;>
        cases h <;> simp
  · cases sheets with
    | nil => simp [excel_to_phone_list] at h
    | cons df tail =>
      rw [excel_to_phone_list] at h
      simp only [List.head?_cons] at h
      rcases hpd : process_dataframe df with _ | nums <;> rw [hpd] at h <;>
        cases h
      · intro k l hkl
        simp at hkl
      · intro k l hkl
        simp only [List.mem_singleton, Prod.mk.injEq] at hkl
        exact hkl.1
  · intro d rest rest'
    rw [excel_to_phone_list, excel_to_phone_list]
    simp only [List.head?_cons]

/-- C10 witness. -/
theorem excel_to_phone_list_single_group_witness :
    ([("CSV", ["123"])] : List (String × List String)).length ≤ 1 :=
  (excel_to_phone_list_single_group "a.csv" [[("mobile", [CellValue.str "123"])]]
    [("CSV", ["123"])] (by decide)).1

/-! ## Claim C5 -/

lemma aggregate_go (l : List Bool) :
    ∀ s f, ((l.foldl recordOutcome (s, f)).1 + (l.foldl recordOutcome (s, f)).2) =
      s + f + l.length := by
  induction l with
  | nil => intro s f; simp
  | cons b bs ih =>
    intro s f
    cases b <;> simp only [List.foldl_cons, recordOutcome] <;> rw [ih] <;>
      simp [List.length_cons] <;> omega

/-- C5: at every observation point of the completion loop —
after any `k` of the submitted futures have completed —
`succeeded + failed = completed ≤ total` holds, and once every future has
completed `succeeded + failed = total`, where `total` is the number of
submitted tasks (one future per phone number of every group). -/
theorem aggregate_counters_invariant (d : List (String × List String))
    (outcomes : List Bool) (k : Nat) (hlen : outcomes.length = total_tasks d)
    (hk : k ≤ outcomes.length) :
    (aggregate (outcomes.take k)).1 + (aggregate (outcomes.take k)).2 = k ∧
    k ≤ total_tasks d ∧
    (aggregate outcomes).1 + (aggregate outcomes).2 = total_tasks d ∧
    (flattenTasks d).length = total_tasks d := by
  have h1 := aggregate_go (outcomes.take k) 0 0
  have h2 := aggregate_go outcomes 0 0
  have htake : (outcomes.take k).length = k := by
    rw [List.length_take]
    omega
  refine ⟨?_, by omega, ?_, ?_⟩
  · unfold aggregate
    rw [h1, htake]
    omega
  · unfold aggregate
    rw [h2, hlen]
    omega
  · unfold flattenTasks total_tasks
    rw [List.length_flatten, List.map_map]
    rfl

/-- C5 witness. -/
theorem aggregate_counters_invariant_witness :
    (aggregate ([true, false].take 1)).1 + (aggregate ([true, false].take 1)).2 = 1 :=
  (aggregate_counters_invariant [("CSV", ["111", "222"])] [true, false] 1
    (by decide) (by decide)).1

/-! ## Lemmas: the retry loop -/

lemma smt_run (ph : String) (r : Nat → AttemptResult) :
    send_message_task ph r =
      if retryableClass (r 0) then
        if retryableClass (r 1) then
          ⟨(attemptOutcome (r 2)).1, ph, (attemptOutcome (r 2)).2, 3,
            [.send 0, .sleep (mkRat 1 2), .send 1, .sleep (mkRat 2 2), .send 2]⟩
        else
          ⟨(attemptOutcome (r 1)).1, ph, (attemptOutcome (r 1)).2, 2,
            [.send 0, .sleep (mkRat 1 2), .send 1]⟩
      else ⟨(attemptOutcome (r 0)).1, ph, (attemptOutcome (r 0)).2, 1, [.send 0]⟩ := by
  unfold send_message_task
  cases h0 : r 0 with
  | success m0 => simp [smtGo, retryableClass, attemptOutcome, h0]
  | apiError c0 m0 =>
    by_cases hc0 : (c0 = 4 ∨ c0 = 80007 ∨ 500 ≤ c0)
    · cases h1 : r 1 with
      | success m1 => simp [smtGo, retryableClass, attemptOutcome, h0, h1, hc0]
      | apiError c1 m1 =>
        by_cases hc1 : (c1 = 4 ∨ c1 = 80007 ∨ 500 ≤ c1)
        · cases h2 : r 2 with
          | success m2 =>
            simp [smtGo, retryableClass, attemptOutcome, h0, h1, h2, hc0, hc1]
          | apiError c2 m2 =>
            simp [smtGo, retryableClass, attemptOutcome, h0, h1, h2, hc0, hc1]
          | transportError m2 =>
            simp [smtGo, retryableClass, attemptOutcome, h0, h1, h2, hc0, hc1]
        · simp [smtGo, retryableClass, attemptOutcome, h0, h1, hc0, hc1]
      | transportError m1 =>
        cases h2 : r 2 with
        | success m2 =>
          simp [smtGo, retryableClass, attemptOutcome, h0, h1, h2, hc0]
        | apiError c2 m2 =>
          simp [smtGo, retryableClass, attemptOutcome, h0, h1, h2, hc0]
        | transportError m2 =>
          simp [smtGo, retryableClass, attemptOutcome, h0, h1, h2, hc0]
    · simp [smtGo, retryableClass, attemptOutcome, h0, hc0]
  | transportError m0 =>
    cases h1 : r 1 with
    | success m1 => simp [smtGo, retryableClass, attemptOutcome, h0, h1]
    | apiError c1 m1 =>
      by_cases hc1 : (c1 = 4 ∨ c1 = 80007 ∨ 500 ≤ c1)
      · cases h2 : r 2 with
        | success m2 =>
          simp [smtGo, retryableClass, attemptOutcome, h0, h1, h2, hc1]
        | apiError c2 m2 =>
          simp [smtGo, retryableClass, attemptOutcome, h0, h1, h2, hc1]
        | transportError m2 =>
          simp [smtGo, retryableClass, attemptOutcome, h0, h1, h2, hc1]
      · simp [smtGo, retryableClass, attemptOutcome, h0, h1, hc1]
    | transportError m1 =>
      cases h2 : r 2 with
      | success m2 =>
        simp [smtGo, retryableClass, attemptOutcome, h0, h1, h2]
      | apiError c2 m2 =>
        simp [smtGo, retryableClass, attemptOutcome, h0, h1, h2]
      | transportError m2 =>
        simp [smtGo, retryableClass, attemptOutcome, h0, h1, h2]

/-! ## Claim C1 -/

/-- C1 counterexample: a task whose attempts are all rate-limited makes
three send calls under a single rate-limiter acquisition; the events
immediately preceding the second and third sends are backoff sleeps, not
acquisitions, contradicting the claim that the gate is acquired immediately
before every attempt. -/
theorem rate_limited_send_retries_without_reacquire :
    (rate_limited_send "9876543210" (fun _ => .apiError 4 "limit")).attempts = 3 ∧
    (rate_limited_send "9876543210" (fun _ => .apiError 4 "limit")).events =
      [Ev.acq, Ev.send 0, Ev.sleep (mkRat 1 2), Ev.send 1,
       Ev.sleep (mkRat 2 2), Ev.send 2] ∧
    (rate_limited_send "9876543210" (fun _ => .apiError 4 "limit")).events.count
      Ev.acq = 1 := by
  decide

/-- C1 (amended): the rate-limiter gate is acquired exactly once per
dispatch task, immediately before the first send attempt; retry attempts 2
and 3 reuse that single acquisition, and within a task the attempts run in
order 1, 2, 3. -/
theorem rate_limited_send_single_acquire (ph : String)
    (r : Nat → AttemptResult) :
    (rate_limited_send ph r).events.count Ev.acq = 1 ∧
    (rate_limited_send ph r).events.head? = some Ev.acq ∧
    (rate_limited_send ph r).events.tail.head? = some (Ev.send 0) ∧
    (rate_limited_send ph r).events.filterMap sendIdx =
      List.range (rate_limited_send ph r).attempts := by
  unfold rate_limited_send
  rw [smt_run]
  by_cases hr0 : retryableClass (r 0) <;> by_cases hr1 : retryableClass (r 1) <;>
    simp [hr0, hr1] <;> decide

/-! ## Claim C2 -/

/-- C2 counterexample: error code 600 is neither a rate-limit code (4,
80007) nor a server-side 5xx code, yet the task retries it (the code
classifies every code `>= 500` as retryable): three attempts and two
backoff sleeps instead of the claimed single attempt. -/
theorem send_message_task_code600_retries :
    ((600 : Int) ≠ 4 ∧ (600 : Int) ≠ 80007 ∧
      ¬(500 ≤ (600 : Int) ∧ (600 : Int) ≤ 599)) ∧
    (send_message_task "p" (fun _ => .apiError 600 "server oddity")).success
      = false ∧
    (send_message_task "p" (fun _ => .apiError 600 "server oddity")).attempts
      = 3 ∧
    (send_message_task "p"
      (fun _ => .apiError 600 "server oddity")).events.countP isSleepEv = 2 := by
  decide

/-- C2 (amended): a provider rejection whose code is not 4, not 80007 and
below 500 terminates the task as a Failure after exactly one attempt, with
no retry and no backoff sleep (the code treats every code `>= 500` as
retryable, not only the 5xx class). -/
theorem send_message_task_fail_fast (ph : String) (r : Nat → AttemptResult)
    (c : Int) (m : String) (h0 : r 0 = .apiError c m) (h4 : c ≠ 4)
    (h8 : c ≠ 80007) (h5 : c < 500) :
    send_message_task ph r =
      ⟨false, ph, some (m ++ " (Code: " ++ toString c ++ ")"), 1, [.send 0]⟩ ∧
    (send_message_task ph r).events.countP isSleepEv = 0 := by
  have hnr : retryableClass (r 0) = false := by
    rw [h0]
    simp only [retryableClass, decide_eq_false_iff_not]
    omega
  have h1 : send_message_task ph r =
      ⟨false, ph, some (m ++ " (Code: " ++ toString c ++ ")"), 1, [.send 0]⟩ := by
    rw [smt_run, if_neg (by simp [hnr]), h0]
    simp [attemptOutcome]
  refine ⟨h1, ?_⟩
  rw [h1]
  rfl

/-- C2 witness. -/
theorem send_message_task_fail_fast_witness :
    send_message_task "p" (fun _ => .apiError 100 "Invalid parameter") =
      ⟨false, "p",
        some ("Invalid parameter" ++ " (Code: " ++ toString (100 : Int) ++ ")"),
        1, [.send 0]⟩ :=
  (send_message_task_fail_fast "p" (fun _ => .apiError 100 "Invalid parameter")
    100 "Invalid parameter" rfl (by decide) (by decide) (by decide)).1

/-! ## Claim C4 -/

/-- C4 counterexample: with rate-limit errors on attempts 1-2 and a
permanent provider rejection on attempt 3, the terminal Failure is produced
after 3 attempts although the third attempt was not classified retryable —
so an attempt count of 3 does not imply every attempt was retryable. -/
theorem send_message_task_three_attempts_last_permanent :
    (send_message_task "p"
      (fun i => if i < 2 then .apiError 4 "throttled"
                else .apiError 100 "Invalid parameter")).success = false ∧
    (send_message_task "p"
      (fun i => if i < 2 then .apiError 4 "throttled"
                else .apiError 100 "Invalid parameter")).attempts = 3 ∧
    retryableClass
      ((fun i => if i < 2 then AttemptResult.apiError 4 "throttled"
                 else AttemptResult.apiError 100 "Invalid parameter") 2) = false := by
  decide

/-- C4 (amended): a terminal Failure is produced after between 1 and 3
attempts, and the attempt count equals 3 only if the first two attempts
were classified retryable (the third attempt need not be); the failure dict
itself records only the success flag, phone and error text — the attempt
count here is a ghost observation of the run, not a field of the dict. -/
theorem send_message_task_attempts_bound (ph : String)
    (r : Nat → AttemptResult)
    (_h : (send_message_task ph r).success = false) :
    1 ≤ (send_message_task ph r).attempts ∧
    (send_message_task ph r).attempts ≤ 3 ∧
    ((send_message_task ph r).attempts = 3 →
      retryableClass (r 0) = true ∧ retryableClass (r 1) = true) := by
  by_cases hr0 : retryableClass (r 0) <;> by_cases hr1 : retryableClass (r 1) <;>
    simp [smt_run, hr0, hr1]

/-- C4 witness. -/
theorem send_message_task_attempts_bound_witness :
    1 ≤ (send_message_task "p" (fun _ => .transportError "timeout")).attempts :=
  (send_message_task_attempts_bound "p" (fun _ => .transportError "timeout")
    (by decide)).1

/-! ## Lemmas: the rate limiter -/

lemma rmax_left (a b : Rat) : a ≤ rmax a b := by
  unfold rmax
  split_ifs with h
  · exact h
  · exact le_refl a

lemma rlAcquire_fst_ge (s : RLState) (now : Rat) : now ≤ (rlAcquire s now).1 := by
  unfold rlAcquire
  split_ifs with h1 h2
  · simp only [qadd_eq, qsub_eq]
    rw [qsub_eq] at h2
    linarith
  · exact le_refl now
  · exact le_refl now

lemma rlSys_fst_step (s0 : RLState) (t0 : Rat) (arr : Nat → Rat) (n : Nat) :
    (rlSys s0 t0 arr n).1 ≤ (rlSys s0 t0 arr (n + 1)).1 := by
  rw [rlSys]
  exact le_trans (rmax_left _ _) (rlAcquire_fst_ge _ _)

lemma rlSys_fst_mono (s0 : RLState) (t0 : Rat) (arr : Nat → Rat)
    {m n : Nat} (h : m ≤ n) : (rlSys s0 t0 arr m).1 ≤ (rlSys s0 t0 arr n).1 := by
  induction n with
  | zero =>
    cases Nat.le_zero.mp h
    exact le_refl _
  | succ n ih =>
    rcases Nat.lt_or_ge m (n + 1) with hlt | hge
    · exact le_trans (ih (Nat.lt_succ_iff.mp hlt)) (rlSys_fst_step s0 t0 arr n)
    · cases Nat.le_antisymm h hge
      exact le_refl _

lemma grantTime_mono (s0 : RLState) (t0 : Rat) (arr : Nat → Rat)
    {m n : Nat} (h : m ≤ n) :
    grantTime s0 t0 arr m ≤ grantTime s0 t0 arr n :=
  rlSys_fst_mono s0 t0 arr (Nat.succ_le_succ h)

lemma rlSys_count (s0 : RLState) (t0 : Rat) (arr : Nat → Rat)
    (hc : s0.count = 0) : ∀ n, (rlSys s0 t0 arr n).2.count = n % 80 := by
  intro n
  induction n with
  | zero => simpa [rlSys]
  | succ n ih =>
    rw [rlSys]
    unfold rlAcquire
    by_cases hb : (rlSys s0 t0 arr n).2.count + 1 ≥ 80
    · rw [if_pos hb]
      rw [ih] at hb
      simp only []
      omega
    · rw [if_neg hb]
      rw [ih] at hb
      simp only [ih]
      omega

lemma rlSys_lastBatch_boundary (s0 : RLState) (t0 : Rat) (arr : Nat → Rat)
    (hc : s0.count = 0) (n : Nat) (hn : n % 80 = 79) :
    (rlSys s0 t0 arr (n + 1)).2.lastBatch = grantTime s0 t0 arr n := by
  rw [grantTime, rlSys]
  unfold rlAcquire
  have hb : (rlSys s0 t0 arr n).2.count + 1 ≥ 80 := by
    rw [rlSys_count s0 t0 arr hc]
    omega
  rw [if_pos hb]

lemma rlSys_lastBatch_const (s0 : RLState) (t0 : Rat) (arr : Nat → Rat)
    (hc : s0.count = 0) (n : Nat) (hn : n % 80 ≠ 79) :
    (rlSys s0 t0 arr (n + 1)).2.lastBatch = (rlSys s0 t0 arr n).2.lastBatch := by
  rw [rlSys]
  unfold rlAcquire
  have hb : ¬((rlSys s0 t0 arr n).2.count + 1 ≥ 80) := by
    rw [rlSys_count s0 t0 arr hc]
    omega
  rw [if_neg hb]

lemma rlSys_lastBatch_stretch (s0 : RLState) (t0 : Rat) (arr : Nat → Rat)
    (hc : s0.count = 0) (n : Nat) (hn : n % 80 = 79) :
    ∀ d, d ≤ 79 → (rlSys s0 t0 arr (n + 1 + d)).2.lastBatch =
      grantTime s0 t0 arr n := by
  intro d
  induction d with
  | zero => intro _; exact rlSys_lastBatch_boundary s0 t0 arr hc n hn
  | succ d ih =>
    intro hd
    have hne : (n + 1 + d) % 80 ≠ 79 := by omega
    have hstep : n + 1 + (d + 1) = (n + 1 + d) + 1 := by omega
    rw [hstep, rlSys_lastBatch_const s0 t0 arr hc _ hne, ih (by omega)]

lemma rlSys_boundary_ge (s0 : RLState) (t0 : Rat) (arr : Nat → Rat)
    (hc : s0.count = 0) (n : Nat) (hn : n % 80 = 79) :
    (rlSys s0 t0 arr n).2.lastBatch + 1 ≤ grantTime s0 t0 arr n := by
  rw [grantTime, rlSys]
  unfold rlAcquire
  have hb : (rlSys s0 t0 arr n).2.count + 1 ≥ 80 := by
    rw [rlSys_count s0 t0 arr hc]
    omega
  rw [if_pos hb]
  simp only [qadd_eq, qsub_eq]
  split_ifs with hs
  · linarith
  · push_neg at hs
    linarith

lemma grantTime_spacing (s0 : RLState) (t0 : Rat) (arr : Nat → Rat)
    (hc : s0.count = 0) (n : Nat) (hn : n % 80 = 79) :
    grantTime s0 t0 arr n + 1 ≤ grantTime s0 t0 arr (n + 80) := by
  have h79 : (n + 80) % 80 = 79 := by omega
  have hb := rlSys_boundary_ge s0 t0 arr hc (n + 80) h79
  have hlb : (rlSys s0 t0 arr (n + 80)).2.lastBatch = grantTime s0 t0 arr n := by
    have hstep : n + 80 = n + 1 + 79 := by omega
    rw [hstep]
    exact rlSys_lastBatch_stretch s0 t0 arr hc n hn 79 (le_refl 79)
  rw [hlb] at hb
  linarith

lemma grantTime_key (s0 : RLState) (t0 : Rat) (arr : Nat → Rat)
    (hc : s0.count = 0) (i : Nat) :
    grantTime s0 t0 arr i + 1 ≤ grantTime s0 t0 arr (i + 159) := by
  have hn : (i + (79 - i % 80)) % 80 = 79 := by omega
  have hs := grantTime_spacing s0 t0 arr hc (i + (79 - i % 80)) hn
  have m1 : grantTime s0 t0 arr i ≤ grantTime s0 t0 arr (i + (79 - i % 80)) :=
    grantTime_mono s0 t0 arr (by omega)
  have m2 : grantTime s0 t0 arr (i + (79 - i % 80) + 80) ≤
      grantTime s0 t0 arr (i + 159) :=
    grantTime_mono s0 t0 arr (by omega)
  linarith

/-! ## Claim C3 -/

/-- C3 (amended): the fixed-window limiter guarantees that the `i`-th and
`(i+159)`-th permits are at least one second apart, so any half-open sliding
window of length one second contains at most 159 send attempts (the indices
granted inside such a window span fewer than 159 positions) — but not the
claimed 80: bursts of up to 159 straddle a window reset. -/
theorem rate_limiter_window_bound (s0 : RLState) (t0 : Rat) (arr : Nat → Rat)
    (a : Rat) (i j : Nat) (hc : s0.count = 0)
    (hi : a ≤ grantTime s0 t0 arr i) (hj : grantTime s0 t0 arr j < a + 1) :
    j < i + 159 := by
  by_contra hle
  push_neg at hle
  have hkey := grantTime_key s0 t0 arr hc i
  have hmono : grantTime s0 t0 arr (i + 159) ≤ grantTime s0 t0 arr j :=
    grantTime_mono s0 t0 arr hle
  linarith

/-- C3 witness. -/
theorem rate_limiter_window_bound_witness : (0 : Nat) < 0 + 159 :=
  rate_limiter_window_bound ⟨0, 0⟩ 0 (fun _ => 0) 0 0 0 rfl
    (by norm_num [grantTime, rlSys, rlAcquire, rmax])
    (by norm_num [grantTime, rlSys, rlAcquire, rmax])

lemma ceGrant_low : ∀ j, j ≤ 78 →
    rlSys ⟨0, 0⟩ 0 ceArr (j + 1) = (mkRat 9 10, ⟨0, j + 1⟩) := by
  intro j
  induction j with
  | zero =>
    intro _
    decide
  | succ j ih =>
    intro hj
    rw [rlSys, ih (by omega)]
    unfold rlAcquire ceArr
    rw [if_neg (by simp; omega)]
    simp [rmax]

lemma ceGrant_boundary : rlSys ⟨0, 0⟩ 0 ceArr 80 = (1, ⟨1, 0⟩) := by
  have h79 : rlSys ⟨0, 0⟩ 0 ceArr 79 = (mkRat 9 10, ⟨0, 79⟩) :=
    ceGrant_low 78 (by omega)
  rw [show (80 : Nat) = 79 + 1 from rfl, rlSys, h79]
  decide

lemma ceGrant_high : ∀ j, j ≤ 78 →
    rlSys ⟨0, 0⟩ 0 ceArr (81 + j) = (1, ⟨1, j + 1⟩) := by
  intro j
  induction j with
  | zero =>
    intro _
    rw [show (81 : Nat) + 0 = 80 + 1 from rfl, rlSys, ceGrant_boundary]
    decide
  | succ j ih =>
    intro hj
    rw [show 81 + (j + 1) = (81 + j) + 1 from by omega, rlSys, ih (by omega)]
    unfold rlAcquire ceArr
    rw [if_neg (by simp; omega)]
    simp only [rmax]
    rw [if_neg (by decide)]

lemma ceGrant_bounds (n : Nat) (hn : n < 159) :
    mkRat 9 10 ≤ ceGrant n ∧ ceGrant n < mkRat 19 10 := by
  unfold ceGrant grantTime
  rcases Nat.lt_or_ge n 79 with h1 | h1
  · rw [ceGrant_low n (by omega)]
    constructor
    · show mkRat 9 10 ≤ mkRat 9 10
      decide
    · show mkRat 9 10 < mkRat 19 10
      decide
  · rcases Nat.lt_or_ge n 80 with h2 | h2
    · have : n = 79 := by omega
      subst this
      rw [show (79 : Nat) + 1 = 80 from rfl, ceGrant_boundary]
      constructor <;> decide
    · rw [show n + 1 = 81 + (n - 80) from by omega, ceGrant_high (n - 80) (by omega)]
      constructor
      · show mkRat 9 10 ≤ (1 : Rat)
        decide
      · show (1 : Rat) < mkRat 19 10
        decide

/-- C3 counterexample: a run in which all 159 workers reach the limiter 0.9
seconds after its creation.  The first 79 permits are granted at once, the
80th after the compensating sleep at second 1.0, and 79 more immediately
after it: all 159 grant times (send-attempt times under an instant
transport) fall inside the half-open one-second window starting at 0.9,
exceeding the claimed bound of 80. -/
theorem rate_limiter_sliding_window_violation :
    ((List.range 159).countP
      (fun n => decide (mkRat 9 10 ≤ ceGrant n ∧ ceGrant n < mkRat 19 10)))
      = 159 ∧ 80 < 159 := by
  refine ⟨?_, by omega⟩
  have hall : ∀ n ∈ List.range 159,
      (fun n => decide (mkRat 9 10 ≤ ceGrant n ∧ ceGrant n < mkRat 19 10)) n
        = true := by
    intro n hn
    rw [List.mem_range] at hn
    rw [decide_eq_true_eq]
    exact ceGrant_bounds n hn
  have := List.countP_eq_length.mpr hall
  simpa using this

